import Mathlib

/-!
# Verification of the AI-CV-Evaluator core against its specification

Shallow embedding of the repository's JavaScript source:

* `src/services/vectorDB.js` — lexical retrieval engine (relevance scoring,
  chunk ranking, document search);
* `src/services/aiService.js` — scoring stage functions (CV match, project
  score, overall recommendation);
* `src/server.js` — job orchestration (`processEvaluation`), result
  compilation, text extraction (`extractFileContent`);
* the production AI-service variant embedded in `src/__test__/api.test.js`
  (`callOpenAI` retry wrapper with fallback substitution in its callers).

Strings are modelled as `List Char` (`Str`); JavaScript numbers are modelled
as the exact rational values of the IEEE-754 binary64 doubles they are, with
`Math.round x = ⌊x + 1/2⌋` on the exact value of its double argument.  Where
an arithmetic step of the source can round (the project weighted sum, whose
weight literals 0.3, 0.2, 0.15, 0.1 are not exactly representable), the
embedding applies `fl`, binary64 round-to-nearest-even, after every
operation, exactly as the hardware does; where every intermediate value is
exactly representable (the CV score's integer arithmetic, the threshold
comparisons), the exact rational value is the double value and no `fl` is
needed.
-/

set_option maxRecDepth 4000

open List

/-- Strings are modelled as character lists. -/
abbrev Str := List Char

/-- Coerce a Lean string literal into the model representation. -/
def ofStr (s : String) : Str := s.toList

/-- Whitespace characters matched by the JavaScript regex class `\s`
(the source documents only contain spaces, tabs and line breaks). -/
def isWsChar (c : Char) : Bool :=
  c = ' ' || c = '\t' || c = '\n' || c = '\r' || c = '\x0b' || c = '\x0c'

mutual

/-- Accumulating worker for `splitWs`: `cur` holds the (reversed) characters
of the token currently being read. -/
def splitWsGo : Str → Str → List Str
  | [], cur => [cur.reverse]
  | c :: rest, cur =>
    if isWsChar c then cur.reverse :: splitWsSkip rest
    else splitWsGo rest (c :: cur)

/-- Worker for `splitWs` that skips the remainder of a whitespace run. -/
def splitWsSkip : Str → List Str
  | [] => [[]]
  | c :: rest => if isWsChar c then splitWsSkip rest else splitWsGo rest [c]

end

/-- JavaScript `s.split(/\s+/)`: the maximal non-whitespace segments of `s`,
with a leading (trailing) empty token when `s` starts (ends) with whitespace,
and `[""]` for the empty string. -/
def splitWs (s : Str) : List Str := splitWsGo s []

/-- JavaScript `s.toLowerCase()` (the source data is ASCII). -/
def lower (s : Str) : Str := s.map Char.toLower

/-- `prefixMatch a b` is true when `a` is an initial segment of `b`. -/
def prefixMatch : Str → Str → Bool
  | [], _ => true
  | _ :: _, [] => false
  | a :: as, b :: bs => a = b && prefixMatch as bs

/-- JavaScript `hay.includes(needle)`: `needle` occurs contiguously in `hay`. -/
def substrMatch (needle : Str) : Str → Bool
  | [] => needle.isEmpty
  | c :: rest => prefixMatch needle (c :: rest) || substrMatch needle rest

/-- JavaScript `xs.join(' ')`. -/
def joinSpace (xs : List Str) : Str := List.intercalate (ofStr " ") xs

/-! ## Retrieval engine (`src/services/vectorDB.js`) -/

/-- `calculateRelevanceScore` (vectorDB.js 258-276): for every
(queryWord, chunkWord) pair where one contains the other add 2 points when the
query word is longer than 3 characters and 1 point otherwise; then add a flat
+3 bonus when some query word occurs in the lower-cased chunk.  `queryWords`
arrives already lower-cased and whitespace-split, as in the source. -/
def calculateRelevanceScore (chunk : Str) (queryWords : List Str) : ℕ :=
  let chunkWords := splitWs (lower chunk)
  let score := queryWords.foldl (fun s qw =>
    chunkWords.foldl (fun s2 cw =>
      if substrMatch qw cw || substrMatch cw qw then
        s2 + (if 3 < qw.length then 2 else 1)
      else s2) s) 0
  if queryWords.any (fun w => substrMatch w (lower chunk)) then score + 3
  else score

/-- The relevance score of a chunk against a raw query string, as used by
`findRelevantChunks` (which lower-cases and whitespace-splits the query). -/
def chunkKey (query : Str) (chunk : Str) : ℕ :=
  calculateRelevanceScore chunk (splitWs (lower query))

/-- A chunk paired with its relevance score (the intermediate objects built
by `findRelevantChunks`). -/
structure ScoredChunk where
  chunk : Str
  score : ℕ
  deriving DecidableEq, Repr

/-- Stable descending insertion by key: `x` is placed before the first
element whose key is not larger, so earlier input elements precede
later ones of equal key. -/
def insertDesc (key : α → ℕ) (x : α) : List α → List α
  | [] => [x]
  | y :: ys => if key x < key y then y :: insertDesc key x ys else x :: y :: ys

/-- Stable sort by key, descending — the unique result of JavaScript's
(stable) `sort((a, b) => key(b) - key(a))`. -/
def sortDesc (key : α → ℕ) : List α → List α
  | [] => []
  | x :: xs => insertDesc key x (sortDesc key xs)

/-- `findRelevantChunks` (vectorDB.js 241-256): score every chunk against the
lower-cased whitespace-split query, drop zero scores, sort by score
descending (stable) and return the texts of the first three. -/
def findRelevantChunks (chunks : List Str) (query : Str) : List Str :=
  let queryWords := splitWs (lower query)
  let scored := (chunks.map (fun c => ScoredChunk.mk c
      (calculateRelevanceScore c queryWords))).filter (fun it => 0 < it.score)
  ((sortDesc ScoredChunk.score scored).take 3).map ScoredChunk.chunk

/-- The token-pair points of the relevance score, written as the
specification words them: a sum over all (queryToken, chunkToken) pairs of
whitespace-split case-folded tokens where one token contains the other, of 2
points when the query token is longer than 3 characters and 1 point
otherwise. -/
def tokenPairPoints (chunk query : Str) : ℕ :=
  ((splitWs (lower query)).map (fun qw =>
    ((splitWs (lower chunk)).countP
      (fun cw => substrMatch qw cw || substrMatch cw qw)) *
    (if 3 < qw.length then 2 else 1))).sum

/-- The relevance score exactly as claim C2 states it: token-pair points
plus a flat +3 bonus exactly when the raw query string appears as a
substring anywhere in the chunk (for comparison against
`calculateRelevanceScore`, whose bonus instead fires when any single query
token appears in the chunk). -/
def claimedRelevanceScore (chunk query : Str) : ℕ :=
  tokenPairPoints chunk query + (if substrMatch query chunk then 3 else 0)

/-- A stored reference document (vectorDB.js `storeDocument`): only the fields
read by `searchDocuments` are modelled; the store holds two fixed documents
(job requirements, scoring rubric) loaded at startup. -/
structure Document where
  id : Str
  category : Str
  chunks : List Str

/-- One entry of the `searchDocuments` result array. -/
structure SearchResult where
  id : Str
  category : Str
  relevantChunks : List Str
  totalRelevance : ℕ
  deriving DecidableEq, Repr

/-- The per-document record built inside `searchDocuments`; the source calls
`findRelevantChunks` twice on identical pure inputs, so the shared value is
computed once here. -/
def searchEntry (query : Str) (doc : Document) : SearchResult :=
  let rc := findRelevantChunks doc.chunks query
  ⟨doc.id, doc.category, rc, rc.length⟩

/-- `searchDocuments` (vectorDB.js 381-395): build a scored record per
document, keep those with positive `totalRelevance`, sort by `totalRelevance`
descending (stable) and return the first `limit`. -/
def searchDocuments (docs : List Document) (query : Str) (limit : ℕ) :
    List SearchResult :=
  (sortDesc SearchResult.totalRelevance
    ((docs.map (searchEntry query)).filter
      (fun r => 0 < r.totalRelevance))).take limit

/-- The `GET /vectordb/search` handler (server.js 371-395): rejects a missing
or empty query (`!query` is truthy on the empty string) and otherwise
delegates to `searchDocuments`. -/
def searchHandler (docs : List Document) (query : Str) (limit : ℕ) :
    Except String (List SearchResult) :=
  if query.isEmpty then
    Except.error "Query parameter \"q\" is required"
  else
    Except.ok (searchDocuments docs query limit)

/-! ## Scoring stage functions (`src/services/aiService.js`) -/

/-- JavaScript `Math.round`: round half toward positive infinity. -/
def jsRound (x : ℚ) : ℤ := ⌊x + 1 / 2⌋

/-- `Math.round(x * 10) / 10` in exact arithmetic — rounding the exact
weighted average to one decimal place, as the specification words it (kept
for comparison with the program's floating-point evaluation). -/
def roundTo1 (x : ℚ) : ℚ := (jsRound (x * 10) : ℚ) / 10

/-- Round a rational to the nearest integer, ties to even — the rounding of
a binary64 significand. -/
def rndEvenInt (q : ℚ) : ℤ :=
  let n := ⌊q⌋
  let f := q - n
  if f < 1 / 2 then n
  else if 1 / 2 < f then n + 1
  else if n % 2 = 0 then n else n + 1

/-- Scale a positive rational up by powers of two until it reaches
`2^52 = 4503599627370496`; returns the scaled value together with the scale
factor applied.  Structural fuel keeps the definition kernel-reducible; fuel
90 normalises every value down to `2^-38`, far below anything this program
computes. -/
def normUp : ℕ → ℚ → ℚ × ℚ
  | 0, y => (y, 1)
  | f + 1, y =>
    if y < 4503599627370496 then
      let r := normUp f (y * 2)
      (r.1, r.2 * 2)
    else (y, 1)

/-- Scale a rational down by powers of two until it is below
`2^53 = 9007199254740992`; returns the scaled value and the scale factor. -/
def normDown : ℕ → ℚ → ℚ × ℚ
  | 0, y => (y, 1)
  | f + 1, y =>
    if 9007199254740992 ≤ y then
      let r := normDown f (y / 2)
      (r.1, r.2 / 2)
    else (y, 1)

/-- Binary64 rounding of a positive rational: scale into the significand
range `[2^52, 2^53)`, round to an integer significand (nearest, ties to
even), and scale back. -/
def flPos (x : ℚ) : ℚ :=
  let u := normUp 90 x
  let v := normDown 90 u.1
  (rndEvenInt v.1 : ℚ) / (u.2 * v.2)

/-- IEEE-754 binary64 round-to-nearest-even, as an exact map on rationals
(valid throughout the normal range; this program's values stay within
`[2^-38, 2^53)`). -/
def fl (x : ℚ) : ℚ :=
  if x = 0 then 0
  else if 0 < x then flPos x
  else -flPos (-x)

/-- A JavaScript double multiplication: exact product, then one rounding. -/
def jsMul (a b : ℚ) : ℚ := fl (a * b)

/-- A JavaScript double addition: exact sum, then one rounding. -/
def jsAdd (a b : ℚ) : ℚ := fl (a + b)

/-- The project weighted sum exactly as the source evaluates it
(aiService.js 124-130): left-associated double additions of double
products, with the weight literals denoting their binary64 values
`fl(3/10)` etc. -/
def jsWeightedSum (c q r d cr : ℤ) : ℚ :=
  jsAdd (jsAdd (jsAdd (jsAdd (jsMul (c : ℚ) (fl (3 / 10)))
    (jsMul (q : ℚ) (fl (1 / 4)))) (jsMul (r : ℚ) (fl (1 / 5))))
    (jsMul (d : ℚ) (fl (3 / 20)))) (jsMul (cr : ℚ) (fl (1 / 10)))

/-- `Math.round(overallScore * 10)` (aiService.js 155): one double
multiplication by the exact double 10, then `Math.round` on the exact value
of the resulting double. -/
def jsOverallInt (c q r d cr : ℤ) : ℤ :=
  jsRound (jsMul (jsWeightedSum c q r d cr) 10)

/-- The stored `overallScore`: the rounded integer divided by 10, a double
division with one final rounding. -/
def jsOverallScore (c q r d cr : ℤ) : ℚ :=
  fl ((jsOverallInt c q r d cr : ℚ) / 10)

/-- The structured CV fields consumed by `evaluateCVMatch` (the `projects` and
`education` fields of `extractCVInfo` are not read by any scoring function). -/
structure CVStructured where
  skills : List Str
  experience_years : ℕ
  achievements : List Str
  communication_indicators : List Str

/-- `scoreExperience` (aiService.js 264-270). -/
def scoreExperience (years : ℕ) : ℤ :=
  if 5 ≤ years then 5
  else if 3 ≤ years then 4
  else if 2 ≤ years then 3
  else if 1 ≤ years then 2
  else 1

/-- `scoreAchievements` (aiService.js 272-277). -/
def scoreAchievements (achievements : List Str) : ℤ :=
  if 3 ≤ achievements.length then 5
  else if 2 ≤ achievements.length then 4
  else if 1 ≤ achievements.length then 3
  else 2

/-- `scoreCulturalFit` (aiService.js 279-284). -/
def scoreCulturalFit (communication : List Str) : ℤ :=
  if 3 ≤ communication.length then 5
  else if 2 ≤ communication.length then 4
  else if 1 ≤ communication.length then 3
  else 2

/-- `scoreCodeQuality` (aiService.js 286-292): count quality keywords in the
project text, then `min(5, max(2, matches + 1))`. -/
def scoreCodeQuality (projectText : Str) : ℤ :=
  min 5 (max 2 ((([ofStr "express", ofStr "node.js", ofStr "structured",
    ofStr "modular", ofStr "test"]).countP
    (fun kw => substrMatch kw (lower projectText)) : ℤ) + 1))

/-- `scoreDocumentation` (aiService.js 294-300). -/
def scoreDocumentation (projectText : Str) : ℤ :=
  min 5 (max 2 ((([ofStr "readme", ofStr "documentation", ofStr "instructions",
    ofStr "setup"]).countP (fun kw => substrMatch kw (lower projectText)) : ℤ) + 2))

/-- `scoreCreativity` (aiService.js 302-304):
`min(5, max(1, floor(length / 100) + 1))`. -/
def scoreCreativity (projectText : Str) : ℤ :=
  min 5 (max 1 ((projectText.length / 100 : ℕ) + 1 : ℤ))

/-- `scoreTechnicalSkillsWithRAG` (aiService.js 310-337): count the CV skills
that hit a backend / AI / cloud keyword that also occurs in the joined job
requirement text, then grade by the fixed ladder. -/
def scoreTechnicalSkillsWithRAG (skills : List Str) (jobRequirements : List Str) : ℤ :=
  let requiredSkills := lower (joinSpace jobRequirements)
  let backendMatch := skills.countP (fun skill =>
    ([ofStr "node.js", ofStr "nodejs", ofStr "express", ofStr "postgresql",
      ofStr "mongodb", ofStr "api", ofStr "javascript", ofStr "python"]).any
      (fun backend => substrMatch backend (lower skill) &&
        substrMatch backend requiredSkills))
  let aiMatch := skills.countP (fun skill =>
    ([ofStr "ai", ofStr "llm", ofStr "machine learning", ofStr "vector",
      ofStr "embeddings"]).any
      (fun ai => substrMatch ai (lower skill) && substrMatch ai requiredSkills))
  let cloudMatch := skills.countP (fun skill =>
    ([ofStr "aws", ofStr "azure", ofStr "gcp", ofStr "docker",
      ofStr "kubernetes"]).any
      (fun cloud => substrMatch cloud (lower skill) &&
        substrMatch cloud requiredSkills))
  if 3 ≤ backendMatch ∧ 1 ≤ aiMatch ∧ 1 ≤ cloudMatch then 5
  else if 2 ≤ backendMatch ∧ 1 ≤ aiMatch then 4
  else if 2 ≤ backendMatch then 3
  else if 1 ≤ backendMatch then 2
  else 1

/-- `scoreExperienceWithRAG` (aiService.js 339-352): bonus points on top of
`scoreExperience` when the requirement text mentions distributed systems or
AI, capped at 5, then `Math.round` (the `+0.5` bonus makes the intermediate
value half-integral). -/
def scoreExperienceWithRAG (years : ℕ) (experienceRequirements : List Str) : ℤ :=
  let reqText := lower (joinSpace experienceRequirements)
  let hasDistributed := substrMatch (ofStr "distributed") reqText ||
    substrMatch (ofStr "microservices") reqText
  let hasAI := substrMatch (ofStr "ai") reqText || substrMatch (ofStr "llm") reqText
  let baseScore : ℚ := (scoreExperience years : ℚ)
  let b1 : ℚ := if 2 ≤ years ∧ hasDistributed = true then min 5 (baseScore + 1)
    else baseScore
  let b2 : ℚ := if 1 ≤ years ∧ hasAI = true then min 5 (b1 + 1 / 2) else b1
  jsRound b2

/-- `scoreCorrectnessWithRAG` (aiService.js 354-368). -/
def scoreCorrectnessWithRAG (projectText : Str) (technicalRequirements : List Str) : ℤ :=
  let reqText := lower (joinSpace technicalRequirements)
  let p := lower projectText
  let score : ℚ := 1 +
    (if substrMatch (ofStr "llm") p && substrMatch (ofStr "llm") reqText then 1 else 0) +
    (if substrMatch (ofStr "chain") p && substrMatch (ofStr "chaining") reqText then 1 else 0) +
    (if substrMatch (ofStr "rag") p && substrMatch (ofStr "rag") reqText then 1 else 0) +
    (if substrMatch (ofStr "vector") p && substrMatch (ofStr "vector") reqText then 1 else 0) +
    (if substrMatch (ofStr "error") p && substrMatch (ofStr "error") reqText then 1 / 2 else 0)
  min 5 (jsRound score)

/-- `scoreResilienceWithRAG` (aiService.js 370-384). -/
def scoreResilienceWithRAG (projectText : Str) (technicalRequirements : List Str) : ℤ :=
  let reqText := lower (joinSpace technicalRequirements)
  let p := lower projectText
  let score : ℚ := 1 +
    (if substrMatch (ofStr "retry") p && substrMatch (ofStr "retry") reqText then 1 else 0) +
    (if substrMatch (ofStr "timeout") p && substrMatch (ofStr "timeout") reqText then 1 else 0) +
    (if substrMatch (ofStr "error handling") p && substrMatch (ofStr "failure") reqText then 1 else 0) +
    (if substrMatch (ofStr "resilience") p || substrMatch (ofStr "robust") p then 1 else 0) +
    (if substrMatch (ofStr "fallback") p || substrMatch (ofStr "recovery") p then 1 / 2 else 0)
  min 5 (jsRound score)

/-- The scores of `MatchResult` (aiService.js 66-88): the four breakdown
scores and the weighted total; the natural-language `reasoning` strings and
`matched_requirements` are not read by any later computation and are omitted. -/
structure MatchResult where
  technical_skills : ℤ
  experience_level : ℤ
  achievements : ℤ
  cultural_fit : ℤ
  score : ℤ

/-- `evaluateCVMatch` (aiService.js 43-89), parametrised by the two lists the
RAG context supplies (`ragContext.jobContext.skills` and `.experience`):
weighted average with weights 0.4 / 0.25 / 0.2 / 0.15, scaled by 20 and
rounded to the final percentage score. -/
def evaluateCVMatch (cv : CVStructured) (jobSkills experienceReqs : List Str) :
    MatchResult :=
  let technicalSkills := scoreTechnicalSkillsWithRAG cv.skills jobSkills
  let experienceLevel := scoreExperienceWithRAG cv.experience_years experienceReqs
  let achievements := scoreAchievements cv.achievements
  let culturalFit := scoreCulturalFit cv.communication_indicators
  let weightedScore : ℚ := (technicalSkills : ℚ) * (4 / 10) +
    (experienceLevel : ℚ) * (25 / 100) + (achievements : ℚ) * (2 / 10) +
    (culturalFit : ℚ) * (15 / 100)
  ⟨technicalSkills, experienceLevel, achievements, culturalFit,
    jsRound (weightedScore * 20)⟩

/-- The scores of `ProjectScore` (aiService.js 132-158): five breakdown
scores and the rounded weighted overall; `reasoning` strings and
`matched_criteria` are omitted as above. -/
structure ProjectScore where
  correctness : ℤ
  code_quality : ℤ
  resilience : ℤ
  documentation : ℤ
  creativity : ℤ
  overallScore : ℚ

/-- `evaluateProject` (aiService.js 108-159), parametrised by the RAG context
list `ragContext.technicalRequirements`: the weighted sum with weights
0.3 / 0.25 / 0.2 / 0.15 / 0.1 is evaluated in binary64 double arithmetic
(every operation rounded, as the JavaScript engine computes it) and then
rounded to one decimal by `Math.round(x * 10) / 10`. -/
def evaluateProject (projectText : Str) (technicalRequirements : List Str) :
    ProjectScore :=
  let correctness := scoreCorrectnessWithRAG projectText technicalRequirements
  let codeQuality := scoreCodeQuality projectText
  let resilience := scoreResilienceWithRAG projectText technicalRequirements
  let documentation := scoreDocumentation projectText
  let creativity := scoreCreativity projectText
  ⟨correctness, codeQuality, resilience, documentation, creativity,
    jsOverallScore correctness codeQuality resilience documentation creativity⟩

/-- A concrete project report text: the keywords fix the five criterion
scores at 1, 2, 4, 3, 3 and the `x` padding brings the length to 250
characters. -/
def cexProjectText : Str :=
  ofStr "retry error handling resilience setup " ++ List.replicate 212 'x'

/-- The pipeline's own technical-requirements context: the Core
Responsibilities bullet points extracted from the seeded job description
(vectorDB.js 31-39, via `extractBulletPoints`). -/
def cexTechReqs : List Str :=
  [ofStr "Building robust backend solutions with high performance and throughput",
   ofStr "Designing and fine-tuning AI prompts aligned with product requirements",
   ofStr "Building LLM chaining flows where model outputs are reliably passed between models",
   ofStr "Implementing Retrieval-Augmented Generation (RAG) with vector databases",
   ofStr "Handling long-running AI processes with job orchestration and retry mechanisms",
   ofStr "Managing failure cases from 3rd party APIs and LLM nondeterminism",
   ofStr "Writing reusable, testable, and efficient code",
   ofStr "Strengthening test coverage for robust web applications"]

/-- The recommendation chosen by `generateOverallSummary`
(aiService.js 186-195): fixed thresholds tested in order. -/
def recommendation (cvScore : ℚ) (projScore : ℚ) : String :=
  if 80 ≤ cvScore ∧ 4 ≤ projScore then
    "Strong candidate - highly recommended for hire"
  else if 70 ≤ cvScore ∧ 7 / 2 ≤ projScore then
    "Good candidate fit - recommended for final interview"
  else if 60 ≤ cvScore ∧ 3 ≤ projScore then
    "Potential candidate - needs technical discussion"
  else
    "Requires further development before consideration"

/-! ## Result compilation and the job state machine (`src/server.js`) -/

/-- The two numeric fields of the compiled result relevant to the numeric
invariants (server.js 452-456); the remaining fields are feedback strings and
metadata copied verbatim. -/
structure EvalResult where
  cv_match_rate : ℚ
  project_score : ℚ

/-- Result compilation in `processEvaluation` (server.js 452-456):
`cv_match_rate = cvMatchRate.score / 100` and
`project_score = projectScore.overallScore`. -/
def compileResult (m : MatchResult) (p : ProjectScore) : EvalResult :=
  ⟨(m.score : ℚ) / 100, p.overallScore⟩

/-- The four status strings ever assigned to `job.status`
(server.js 228, 410, 495, 509). -/
inductive JobStatus where
  | queued
  | processing
  | completed
  | failed
  deriving DecidableEq, Repr

/-- An evaluation job record as stored in `evaluationJobs`; timestamps are
abstract instants (`new Date()` values). -/
structure Job where
  status : JobStatus
  message : String
  result : Option EvalResult := none
  error : Option String := none
  createdAt : ℕ
  startedAt : Option ℕ := none
  completedAt : Option ℕ := none
  failedAt : Option ℕ := none

/-- The five `job.message` values written while `status = processing`
(server.js 411, 419, 427, 437, 446), in write order. -/
def processingMessages : List String :=
  ["Running AI analysis pipeline...",
   "Extracting text from uploaded files...",
   "Analyzing CV with AI and retrieving job context...",
   "Evaluating project deliverable with enhanced scoring...",
   "Compiling final evaluation results..."]

/-- How one run of `processEvaluation` ends: either every stage succeeds and
the compiled result is attached, or some awaited stage throws after the
`k+1`-th processing checkpoint (`k : Fin 5`) and the error message is
attached by the `catch` block. -/
inductive PipelineOutcome where
  | success (r : EvalResult)
  | failure (k : Fin 5) (msg : String)

/-- The sequence of job snapshots observable in the job store for one
evaluation: the `queued` record written by the `POST /evaluate` handler
(server.js 225-231), the `processing` checkpoints written by
`processEvaluation`, and the terminal write (server.js 494-499 on success,
508-513 in the `catch` block). -/
def jobTrace (t0 t1 t2 : ℕ) (o : PipelineOutcome) : List Job :=
  let queuedJob : Job :=
    { status := .queued, message := "Evaluation queued for processing",
      createdAt := t0 }
  let procJob : String → Job := fun m =>
    { status := .processing, message := m, createdAt := t0,
      startedAt := some t1 }
  match o with
  | .success r =>
    queuedJob :: processingMessages.map procJob ++
      [{ status := .completed, message := "AI evaluation completed successfully",
         result := some r, createdAt := t0, startedAt := some t1,
         completedAt := some t2 }]
  | .failure k msg =>
    queuedJob :: (processingMessages.take (k.val + 1)).map procJob ++
      [{ status := .failed, message := "AI evaluation failed - please try again",
         error := some msg, createdAt := t0, startedAt := some t1,
         failedAt := some t2 }]

/-- The status transitions the claim allows: a snapshot keeps its status, or
moves `queued → processing`, or moves `processing → {completed, failed}`. -/
def statusStep (a b : Job) : Prop :=
  a.status = b.status ∨
  (a.status = .queued ∧ b.status = .processing) ∨
  (a.status = .processing ∧ (b.status = .completed ∨ b.status = .failed))

/-! ## Text extraction (`src/server.js` 520-549) -/

/-- The metadata of a stored upload consumed by `extractFileContent`. -/
structure FileInfo where
  originalName : Str
  mimetype : Str
  size : ℕ

/-- The mock content returned for non-`text/plain` files (server.js 533-540),
with the file name, size and mime type interpolated. -/
def mockContent (f : FileInfo) : Str :=
  ofStr "\n    Mock extracted content from " ++ f.originalName ++
  ofStr "\n    File size: " ++ ofStr (toString f.size) ++ ofStr " bytes" ++
  ofStr "\n    File type: " ++ f.mimetype ++
  ofStr "\n    \n    [In production, this would contain the actual extracted text from PDF/DOCX files]\n    This mock demonstrates text extraction functionality for non-text files.\n    "

/-- `extractFileContent` (server.js 520-549).  `readResult` models
`fs.readFileSync(fileInfo.path, 'utf8')`, which either yields the file
contents or throws an error with a message; the `try/catch` converts the
throw into an error-message string, so the function always returns a
string. -/
def extractFileContent (f : FileInfo) (readResult : Except Str Str) : Str :=
  if f.mimetype = ofStr "text/plain" then
    match readResult with
    | .ok content => content
    | .error msg =>
      ofStr "Unable to extract content from " ++ f.originalName ++
        ofStr ": " ++ msg
  else mockContent f

/-! ## External-call wrapper
(production AI service embedded in `src/__test__/api.test.js`, 716-767) -/

/-- `retryConfig` of the production service (api.test.js 425-429); the mock
service in `src/services/aiService.js` declares `maxRetries` and `baseDelay`
with the same defaults. -/
structure RetryConfig where
  maxRetries : ℕ
  baseDelay : ℕ
  maxDelay : ℕ

/-- The default configuration: `maxRetries = 3`, `baseDelay = 1000`,
`maxDelay = 10000`. -/
def defaultRetryConfig : RetryConfig := ⟨3, 1000, 10000⟩

/-- The backoff delay computed before retry number `attempt + 1`
(api.test.js 755-758): `min(baseDelay * 2^(attempt-1), maxDelay)`. -/
def backoffDelay (cfg : RetryConfig) (attempt : ℕ) : ℕ :=
  min (cfg.baseDelay * 2 ^ (attempt - 1)) cfg.maxDelay

/-- The retry loop of `callOpenAI` (api.test.js 716-767): `ok a` tells
whether attempt number `a` succeeds; `remaining` counts the retries still
allowed (`maxRetries - attempt`).  Returns whether some attempt succeeded
together with the list of delays actually waited (`await this.sleep(delay)`
runs only when `attempt < maxRetries`; after the last failed attempt the
function throws instead). -/
def callLoop (cfg : RetryConfig) (ok : ℕ → Bool) :
    ℕ → ℕ → Bool × List ℕ
  | attempt, 0 => (ok attempt, [])
  | attempt, remaining + 1 =>
    if ok attempt then (true, [])
    else
      let d := backoffDelay cfg attempt
      let rest := callLoop cfg ok (attempt + 1) remaining
      (rest.1, d :: rest.2)

/-- A pipeline stage invoking `callOpenAI` (attempts start at 1): when the
loop exhausts its retries and throws, the stage's `catch` substitutes the
deterministic `fallback` value (api.test.js 487-490, 544-545, 579-580,
632-633, 670-671, 706-708), so the stage always returns a value.  The second
component is the sequence of backoff delays waited. -/
def stageInvoke (cfg : RetryConfig) (ok : ℕ → Bool) (value fallback : α) :
    α × List ℕ :=
  let run := callLoop cfg ok 1 (cfg.maxRetries - 1)
  (if run.1 then value else fallback, run.2)


/-! ## Arithmetic facts about `Math.round` -/

theorem jsRound_intCast (n : ℤ) : jsRound (n : ℚ) = n := by
  unfold jsRound
  rw [Int.floor_int_add]
  norm_num

theorem le_jsRound {lo : ℤ} {x : ℚ} (h : (lo : ℚ) ≤ x) : lo ≤ jsRound x :=
  Int.le_floor.mpr (by linarith)

theorem jsRound_le {hi : ℤ} {x : ℚ} (h : x ≤ (hi : ℚ)) : jsRound x ≤ hi := by
  have h2 : jsRound x < hi + 1 := Int.floor_lt.mpr (by push_cast; linarith)
  omega

/-! ## Bounds of the individual scoring functions -/

theorem scoreExperience_bounds (y : ℕ) :
    1 ≤ scoreExperience y ∧ scoreExperience y ≤ 5 := by
  unfold scoreExperience
  split_ifs <;> norm_num

theorem scoreTechnicalSkillsWithRAG_bounds (skills jobReqs : List Str) :
    1 ≤ scoreTechnicalSkillsWithRAG skills jobReqs ∧
      scoreTechnicalSkillsWithRAG skills jobReqs ≤ 5 := by
  unfold scoreTechnicalSkillsWithRAG
  dsimp only
  split_ifs <;> norm_num

theorem scoreExperienceWithRAG_bounds (y : ℕ) (reqs : List Str) :
    1 ≤ scoreExperienceWithRAG y reqs ∧ scoreExperienceWithRAG y reqs ≤ 5 := by
  unfold scoreExperienceWithRAG
  dsimp only
  have hb := scoreExperience_bounds y
  have hb1 : (1 : ℚ) ≤ (scoreExperience y : ℚ) := by exact_mod_cast hb.1
  have hb2 : (scoreExperience y : ℚ) ≤ 5 := by exact_mod_cast hb.2
  have hm1 : (1 : ℚ) ≤ 5 ⊓ ((scoreExperience y : ℚ) + 1) :=
    le_min (by norm_num) (by linarith)
  have hm2 : (5 : ℚ) ⊓ ((scoreExperience y : ℚ) + 1) ≤ 5 := min_le_left _ _
  split_ifs <;>
    refine ⟨le_jsRound ?_, jsRound_le ?_⟩ <;>
    push_cast <;>
    first
      | exact min_le_left _ _
      | exact le_min (by norm_num) (by linarith)
      | linarith

theorem scoreAchievements_bounds (a : List Str) :
    1 ≤ scoreAchievements a ∧ scoreAchievements a ≤ 5 := by
  unfold scoreAchievements
  split_ifs <;> norm_num

theorem scoreCulturalFit_bounds (c : List Str) :
    1 ≤ scoreCulturalFit c ∧ scoreCulturalFit c ≤ 5 := by
  unfold scoreCulturalFit
  split_ifs <;> norm_num

theorem scoreCodeQuality_bounds (t : Str) :
    1 ≤ scoreCodeQuality t ∧ scoreCodeQuality t ≤ 5 := by
  unfold scoreCodeQuality
  omega

theorem scoreDocumentation_bounds (t : Str) :
    1 ≤ scoreDocumentation t ∧ scoreDocumentation t ≤ 5 := by
  unfold scoreDocumentation
  omega

theorem scoreCreativity_bounds (t : Str) :
    1 ≤ scoreCreativity t ∧ scoreCreativity t ≤ 5 := by
  unfold scoreCreativity
  omega

theorem scoreCorrectnessWithRAG_bounds (t : Str) (reqs : List Str) :
    1 ≤ scoreCorrectnessWithRAG t reqs ∧ scoreCorrectnessWithRAG t reqs ≤ 5 := by
  unfold scoreCorrectnessWithRAG
  dsimp only
  constructor
  · refine le_min (by norm_num) (le_jsRound ?_)
    push_cast
    split_ifs <;> norm_num
  · exact min_le_left _ _

theorem scoreResilienceWithRAG_bounds (t : Str) (reqs : List Str) :
    1 ≤ scoreResilienceWithRAG t reqs ∧ scoreResilienceWithRAG t reqs ≤ 5 := by
  unfold scoreResilienceWithRAG
  dsimp only
  constructor
  · refine le_min (by norm_num) (le_jsRound ?_)
    push_cast
    split_ifs <;> norm_num
  · exact min_le_left _ _

/-- **C4.** For every structured CV input and every pair of RAG job-context
lists, the CV match result's final `score` equals the weighted average of the
four per-criterion scores with weights technical skills 0.40, experience
0.25, achievements 0.20, cultural fit 0.15, scaled by 20 into the 0-100
range (the `Math.round` in the source is the identity here because the
scaled weighted sum `8a + 5b + 4c + 3d` is an integer), and each
per-criterion score lies between 1 and 5. -/
theorem evaluateCVMatch_weighted (cv : CVStructured) (jobSkills expReqs : List Str) :
    ((evaluateCVMatch cv jobSkills expReqs).score : ℚ) =
      (((evaluateCVMatch cv jobSkills expReqs).technical_skills : ℚ) * 0.40 +
       ((evaluateCVMatch cv jobSkills expReqs).experience_level : ℚ) * 0.25 +
       ((evaluateCVMatch cv jobSkills expReqs).achievements : ℚ) * 0.20 +
       ((evaluateCVMatch cv jobSkills expReqs).cultural_fit : ℚ) * 0.15) * 20 ∧
    (1 ≤ (evaluateCVMatch cv jobSkills expReqs).technical_skills ∧
      (evaluateCVMatch cv jobSkills expReqs).technical_skills ≤ 5) ∧
    (1 ≤ (evaluateCVMatch cv jobSkills expReqs).experience_level ∧
      (evaluateCVMatch cv jobSkills expReqs).experience_level ≤ 5) ∧
    (1 ≤ (evaluateCVMatch cv jobSkills expReqs).achievements ∧
      (evaluateCVMatch cv jobSkills expReqs).achievements ≤ 5) ∧
    (1 ≤ (evaluateCVMatch cv jobSkills expReqs).cultural_fit ∧
      (evaluateCVMatch cv jobSkills expReqs).cultural_fit ≤ 5) := by
  unfold evaluateCVMatch
  dsimp only
  refine ⟨?_, scoreTechnicalSkillsWithRAG_bounds _ _,
    scoreExperienceWithRAG_bounds _ _, scoreAchievements_bounds _,
    scoreCulturalFit_bounds _⟩
  have h : ((scoreTechnicalSkillsWithRAG cv.skills jobSkills : ℚ) * (4 / 10) +
      (scoreExperienceWithRAG cv.experience_years expReqs : ℚ) * (25 / 100) +
      (scoreAchievements cv.achievements : ℚ) * (2 / 10) +
      (scoreCulturalFit cv.communication_indicators : ℚ) * (15 / 100)) * 20 =
      ((8 * scoreTechnicalSkillsWithRAG cv.skills jobSkills +
        5 * scoreExperienceWithRAG cv.experience_years expReqs +
        4 * scoreAchievements cv.achievements +
        3 * scoreCulturalFit cv.communication_indicators : ℤ) : ℚ) := by
    push_cast
    ring
  rw [h, jsRound_intCast]
  push_cast
  ring

theorem roundTo1_close (x : ℚ) : |roundTo1 x - x| ≤ 1 / 20 := by
  have h1 : ((jsRound (x * 10)) : ℚ) ≤ x * 10 + 1 / 2 := Int.floor_le _
  have h2 : x * 10 + 1 / 2 < (jsRound (x * 10) : ℚ) + 1 := Int.lt_floor_add_one _
  rw [abs_le]
  unfold roundTo1
  constructor <;> [linarith; linarith]

theorem rndEvenInt_le (q : ℚ) : (rndEvenInt q : ℚ) ≤ q + 1 / 2 := by
  have hf := Int.floor_le q
  have hc := Int.lt_floor_add_one q
  unfold rndEvenInt
  dsimp only
  split_ifs <;> push_cast <;> linarith

theorem le_rndEvenInt (q : ℚ) : q - 1 / 2 ≤ (rndEvenInt q : ℚ) := by
  have hf := Int.floor_le q
  have hc := Int.lt_floor_add_one q
  unfold rndEvenInt
  dsimp only
  split_ifs <;> push_cast <;> linarith

theorem normUp_mul_eq : ∀ (f : ℕ) (x : ℚ), (normUp f x).1 = x * (normUp f x).2 := by
  intro f
  induction f with
  | zero => intro x; simp [normUp]
  | succ n ih =>
    intro x
    unfold normUp
    by_cases h : x < 4503599627370496
    · rw [if_pos h]
      dsimp only
      rw [ih (x * 2)]
      ring
    · rw [if_neg h]
      simp

theorem normUp_sf_pos : ∀ (f : ℕ) (x : ℚ), 0 < (normUp f x).2 := by
  intro f
  induction f with
  | zero => intro x; simp [normUp]
  | succ n ih =>
    intro x
    unfold normUp
    by_cases h : x < 4503599627370496
    · rw [if_pos h]
      dsimp only
      have := ih (x * 2)
      positivity
    · rw [if_neg h]
      simp

theorem normUp_ge : ∀ (f : ℕ) (x : ℚ),
    (4503599627370496 : ℚ) ≤ x * 2 ^ f → 4503599627370496 ≤ (normUp f x).1 := by
  intro f
  induction f with
  | zero =>
    intro x h
    simp only [pow_zero, mul_one] at h
    simpa [normUp] using h
  | succ n ih =>
    intro x h
    unfold normUp
    by_cases hc : x < 4503599627370496
    · rw [if_pos hc]
      dsimp only
      apply ih
      have hx : x * 2 * 2 ^ n = x * 2 ^ (n + 1) := by ring
      linarith [h, hx.le, hx.ge]
    · rw [if_neg hc]
      dsimp only
      linarith

theorem normUp_lt : ∀ (f : ℕ) (x : ℚ),
    x < 9007199254740992 → (normUp f x).1 < 9007199254740992 := by
  intro f
  induction f with
  | zero => intro x h; simpa [normUp] using h
  | succ n ih =>
    intro x h
    unfold normUp
    by_cases hc : x < 4503599627370496
    · rw [if_pos hc]
      dsimp only
      exact ih (x * 2) (by linarith)
    · rw [if_neg hc]
      dsimp only
      linarith

theorem normDown_mul_eq : ∀ (f : ℕ) (x : ℚ),
    (normDown f x).1 = x * (normDown f x).2 := by
  intro f
  induction f with
  | zero => intro x; simp [normDown]
  | succ n ih =>
    intro x
    unfold normDown
    by_cases h : (9007199254740992 : ℚ) ≤ x
    · rw [if_pos h]
      dsimp only
      rw [ih (x / 2)]
      ring
    · rw [if_neg h]
      simp

theorem normDown_sf_pos : ∀ (f : ℕ) (x : ℚ), 0 < (normDown f x).2 := by
  intro f
  induction f with
  | zero => intro x; simp [normDown]
  | succ n ih =>
    intro x
    unfold normDown
    by_cases h : (9007199254740992 : ℚ) ≤ x
    · rw [if_pos h]
      dsimp only
      have := ih (x / 2)
      positivity
    · rw [if_neg h]
      simp

theorem normDown_ge : ∀ (f : ℕ) (x : ℚ),
    (4503599627370496 : ℚ) ≤ x → 4503599627370496 ≤ (normDown f x).1 := by
  intro f
  induction f with
  | zero => intro x h; simpa [normDown] using h
  | succ n ih =>
    intro x h
    unfold normDown
    by_cases hc : (9007199254740992 : ℚ) ≤ x
    · rw [if_pos hc]
      dsimp only
      exact ih (x / 2) (by linarith)
    · rw [if_neg hc]
      dsimp only
      linarith

theorem normDown_lt : ∀ (f : ℕ) (x : ℚ),
    x < 9007199254740992 * 2 ^ f → (normDown f x).1 < 9007199254740992 := by
  intro f
  induction f with
  | zero =>
    intro x h
    simp only [pow_zero, mul_one] at h
    simpa [normDown] using h
  | succ n ih =>
    intro x h
    unfold normDown
    by_cases hc : (9007199254740992 : ℚ) ≤ x
    · rw [if_pos hc]
      dsimp only
      apply ih
      have hx : (9007199254740992 : ℚ) * 2 ^ (n + 1) = (9007199254740992 * 2 ^ n) * 2 := by
        ring
      rw [hx] at h
      linarith
    · rw [if_neg hc]
      dsimp only
      linarith

theorem flPos_err (x : ℚ) (hlo : 1 / 2 ^ 38 ≤ x) (hhi : x < 9007199254740992) :
    |flPos x - x| ≤ x / 9007199254740992 := by
  have hxpos : 0 < x := lt_of_lt_of_le (by positivity) hlo
  have hu_eq := normUp_mul_eq 90 x
  have hu_pos := normUp_sf_pos 90 x
  have hu_ge : (4503599627370496 : ℚ) ≤ (normUp 90 x).1 := by
    apply normUp_ge
    have h90 : (0 : ℚ) ≤ 2 ^ 90 := by positivity
    have hm := mul_le_mul_of_nonneg_right hlo h90
    have hval : (1 / 2 ^ 38 : ℚ) * 2 ^ 90 = 4503599627370496 := by norm_num
    linarith
  have hu_lt : (normUp 90 x).1 < 9007199254740992 := normUp_lt 90 x hhi
  have hv_eq := normDown_mul_eq 90 (normUp 90 x).1
  have hv_pos := normDown_sf_pos 90 (normUp 90 x).1
  have hv_ge := normDown_ge 90 _ hu_ge
  have hv_lt : (normDown 90 (normUp 90 x).1).1 < 9007199254740992 := by
    apply normDown_lt
    have h1 : (1 : ℚ) ≤ 2 ^ 90 := by norm_num
    nlinarith
  unfold flPos
  dsimp only
  set y := (normDown 90 (normUp 90 x).1).1 with hy
  set P := (normUp 90 x).2 * (normDown 90 (normUp 90 x).1).2 with hP
  have hPpos : 0 < P := mul_pos hu_pos hv_pos
  have hyP : y = x * P := by
    rw [hv_eq, hP, hu_eq]
    ring
  have hr1 := rndEvenInt_le y
  have hr2 := le_rndEvenInt y
  have habs : |(rndEvenInt y : ℚ) - y| ≤ 1 / 2 := abs_le.mpr ⟨by linarith, by linarith⟩
  have hdiff : (rndEvenInt y : ℚ) / P - x = ((rndEvenInt y : ℚ) - y) / P := by
    field_simp
    rw [hyP]
    ring
  rw [hdiff, abs_div, abs_of_pos hPpos]
  rw [div_le_div_iff₀ hPpos (by norm_num : (0 : ℚ) < 9007199254740992)]
  have hyB : (4503599627370496 : ℚ) ≤ x * P := by rw [← hyP]; exact hv_ge
  nlinarith [habs]

theorem fl_err (x : ℚ) (hlo : 1 / 2 ^ 38 ≤ x) (hhi : x < 9007199254740992) :
    |fl x - x| ≤ x / 9007199254740992 := by
  have hxpos : 0 < x := lt_of_lt_of_le (by positivity) hlo
  rw [fl, if_neg (ne_of_gt hxpos), if_pos hxpos]
  exact flPos_err x hlo hhi

theorem jsMul_weight_err (A w : ℚ) (hA1 : 1 ≤ A) (hA5 : A ≤ 5)
    (hw1 : 1 / 16 ≤ w) (hw2 : w ≤ 1 / 2) :
    |jsMul A (fl w) - A * w| ≤ 6 / 9007199254740992 ∧
    1 / 64 ≤ jsMul A (fl w) ∧ jsMul A (fl w) ≤ 4 := by
  have hB : (0 : ℚ) < 9007199254740992 := by norm_num
  have hw38 : (1 : ℚ) / 2 ^ 38 ≤ w := by
    have h : (1 : ℚ) / 2 ^ 38 ≤ 1 / 16 := by norm_num
    linarith
  have hfw := fl_err w hw38 (by linarith)
  have hfwB : w / 9007199254740992 ≤ 1 / 2 / 9007199254740992 := by gcongr
  have hfw2 : |fl w - w| ≤ 1 / 2 / 9007199254740992 := le_trans hfw hfwB
  have hfw3 := abs_le.mp hfw2
  have hF1 : 1 / 32 ≤ fl w := by linarith
  have hF2 : fl w ≤ 3 / 5 := by linarith
  have hu1 : 1 / 32 ≤ A * fl w := by nlinarith
  have hu2 : A * fl w ≤ 3 := by nlinarith
  have hu38 : (1 : ℚ) / 2 ^ 38 ≤ A * fl w := by
    have h : (1 : ℚ) / 2 ^ 38 ≤ 1 / 32 := by norm_num
    linarith
  have hfu := fl_err (A * fl w) hu38 (by linarith)
  have hfuB : A * fl w / 9007199254740992 ≤ 3 / 9007199254740992 := by gcongr
  have hfu2 : |fl (A * fl w) - A * fl w| ≤ 3 / 9007199254740992 := le_trans hfu hfuB
  have hfu3 := abs_le.mp hfu2
  have htri : |fl (A * fl w) - A * w| ≤
      |fl (A * fl w) - A * fl w| + |A * fl w - A * w| := abs_sub_le _ _ _
  have hmul : |A * fl w - A * w| ≤ 5 * (1 / 2 / 9007199254740992) := by
    have he : A * fl w - A * w = A * (fl w - w) := by ring
    rw [he, abs_mul, abs_of_nonneg (by linarith : (0 : ℚ) ≤ A)]
    exact mul_le_mul hA5 hfw2 (abs_nonneg _) (by norm_num)
  refine ⟨?_, ?_, ?_⟩
  · rw [jsMul]
    linarith
  · rw [jsMul]
    linarith
  · rw [jsMul]
    linarith

theorem jsAdd_err (u v U V du dv : ℚ) (hu : |u - U| ≤ du) (hv : |v - V| ≤ dv)
    (hlo : 1 / 32 ≤ u + v) (hhi : u + v ≤ 60) :
    |jsAdd u v - (U + V)| ≤ 60 / 9007199254740992 + du + dv ∧
    u + v - 60 / 9007199254740992 ≤ jsAdd u v ∧
    jsAdd u v ≤ u + v + 60 / 9007199254740992 := by
  have h38 : (1 : ℚ) / 2 ^ 38 ≤ u + v := by
    have h : (1 : ℚ) / 2 ^ 38 ≤ 1 / 32 := by norm_num
    linarith
  have hf := fl_err (u + v) h38 (by linarith)
  have hfB : (u + v) / 9007199254740992 ≤ 60 / 9007199254740992 := by gcongr
  have hf2 : |fl (u + v) - (u + v)| ≤ 60 / 9007199254740992 := le_trans hf hfB
  have hf3 := abs_le.mp hf2
  have htri : |fl (u + v) - (U + V)| ≤
      |fl (u + v) - (u + v)| + |(u + v) - (U + V)| := abs_sub_le _ _ _
  have hsum : |(u + v) - (U + V)| ≤ du + dv := by
    have he : (u + v) - (U + V) = (u - U) + (v - V) := by ring
    rw [he]
    have := abs_add (u - U) (v - V)
    linarith
  refine ⟨by rw [jsAdd]; linarith, by rw [jsAdd]; linarith, by rw [jsAdd]; linarith⟩

theorem jsMul_ten_err (u U du : ℚ) (hu : |u - U| ≤ du)
    (hlo : 1 / 2 ≤ u) (hhi : u ≤ 6) :
    |jsMul u 10 - 10 * U| ≤ 60 / 9007199254740992 + 10 * du := by
  have h38 : (1 : ℚ) / 2 ^ 38 ≤ u * 10 := by
    have h : (1 : ℚ) / 2 ^ 38 ≤ 5 := by norm_num
    linarith
  have hf := fl_err (u * 10) h38 (by linarith)
  have hfB : u * 10 / 9007199254740992 ≤ 60 / 9007199254740992 := by
    gcongr
    linarith
  have hf2 : |fl (u * 10) - u * 10| ≤ 60 / 9007199254740992 := le_trans hf hfB
  have htri : |fl (u * 10) - 10 * U| ≤
      |fl (u * 10) - u * 10| + |u * 10 - 10 * U| := abs_sub_le _ _ _
  have hmul : |u * 10 - 10 * U| ≤ 10 * du := by
    have he : u * 10 - 10 * U = 10 * (u - U) := by ring
    rw [he, abs_mul, abs_of_nonneg (by norm_num : (0 : ℚ) ≤ (10 : ℚ))]
    linarith
  rw [jsMul]
  linarith

theorem intFinish (a b c d e n : ℤ)
    (ha1 : 1 ≤ a) (ha5 : a ≤ 5) (hb1 : 1 ≤ b) (hb5 : b ≤ 5)
    (hc1 : 1 ≤ c) (hc5 : c ≤ 5) (hd1 : 1 ≤ d) (hd5 : d ≤ 5)
    (he1 : 1 ≤ e) (he5 : e ≤ 5)
    (hlo : 6 * a + 5 * b + 4 * c + 3 * d + 2 * e - 2 < 2 * n)
    (hhi : 2 * n < 6 * a + 5 * b + 4 * c + 3 * d + 2 * e + 2) :
    6 * a + 5 * b + 4 * c + 3 * d + 2 * e - 1 ≤ 2 * n ∧
    2 * n ≤ 6 * a + 5 * b + 4 * c + 3 * d + 2 * e + 1 ∧
    10 ≤ n ∧ n ≤ 50 := by omega

theorem jsOverallInt_close (a b c d e : ℤ)
    (ha1 : 1 ≤ a) (ha5 : a ≤ 5) (hb1 : 1 ≤ b) (hb5 : b ≤ 5)
    (hc1 : 1 ≤ c) (hc5 : c ≤ 5) (hd1 : 1 ≤ d) (hd5 : d ≤ 5)
    (he1 : 1 ≤ e) (he5 : e ≤ 5) :
    6 * a + 5 * b + 4 * c + 3 * d + 2 * e - 1 ≤ 2 * jsOverallInt a b c d e ∧
    2 * jsOverallInt a b c d e ≤ 6 * a + 5 * b + 4 * c + 3 * d + 2 * e + 1 ∧
    10 ≤ jsOverallInt a b c d e ∧ jsOverallInt a b c d e ≤ 50 := by
  unfold jsOverallInt jsWeightedSum
  have hA1 : (1 : ℚ) ≤ (a : ℚ) := by exact_mod_cast ha1
  have hA5 : ((a : ℚ)) ≤ 5 := by exact_mod_cast ha5
  have hB1 : (1 : ℚ) ≤ (b : ℚ) := by exact_mod_cast hb1
  have hB5 : ((b : ℚ)) ≤ 5 := by exact_mod_cast hb5
  have hC1 : (1 : ℚ) ≤ (c : ℚ) := by exact_mod_cast hc1
  have hC5 : ((c : ℚ)) ≤ 5 := by exact_mod_cast hc5
  have hD1 : (1 : ℚ) ≤ (d : ℚ) := by exact_mod_cast hd1
  have hD5 : ((d : ℚ)) ≤ 5 := by exact_mod_cast hd5
  have hE1 : (1 : ℚ) ≤ (e : ℚ) := by exact_mod_cast he1
  have hE5 : ((e : ℚ)) ≤ 5 := by exact_mod_cast he5
  obtain ⟨hp1, hp1lo, hp1hi⟩ :=
    jsMul_weight_err (a : ℚ) (3 / 10) hA1 hA5 (by norm_num) (by norm_num)
  obtain ⟨hp2, hp2lo, hp2hi⟩ :=
    jsMul_weight_err (b : ℚ) (1 / 4) hB1 hB5 (by norm_num) (by norm_num)
  obtain ⟨hp3, hp3lo, hp3hi⟩ :=
    jsMul_weight_err (c : ℚ) (1 / 5) hC1 hC5 (by norm_num) (by norm_num)
  obtain ⟨hp4, hp4lo, hp4hi⟩ :=
    jsMul_weight_err (d : ℚ) (3 / 20) hD1 hD5 (by norm_num) (by norm_num)
  obtain ⟨hp5, hp5lo, hp5hi⟩ :=
    jsMul_weight_err (e : ℚ) (1 / 10) hE1 hE5 (by norm_num) (by norm_num)
  set P1 := jsMul (a : ℚ) (fl (3 / 10)) with hP1def
  set P2 := jsMul (b : ℚ) (fl (1 / 4)) with hP2def
  set P3 := jsMul (c : ℚ) (fl (1 / 5)) with hP3def
  set P4 := jsMul (d : ℚ) (fl (3 / 20)) with hP4def
  set P5 := jsMul (e : ℚ) (fl (1 / 10)) with hP5def
  obtain ⟨hs1, hs1lo, hs1hi⟩ :=
    jsAdd_err P1 P2 ((a : ℚ) * (3 / 10)) ((b : ℚ) * (1 / 4)) _ _ hp1 hp2
      (by linarith) (by linarith)
  set S1 := jsAdd P1 P2 with hS1def
  have hs1' : |S1 - ((a : ℚ) * (3 / 10) + (b : ℚ) * (1 / 4))| ≤
      72 / 9007199254740992 := by linarith
  obtain ⟨hs2, hs2lo, hs2hi⟩ :=
    jsAdd_err S1 P3 ((a : ℚ) * (3 / 10) + (b : ℚ) * (1 / 4)) ((c : ℚ) * (1 / 5))
      _ _ hs1' hp3 (by linarith) (by linarith)
  set S2 := jsAdd S1 P3 with hS2def
  have hs2' : |S2 - ((a : ℚ) * (3 / 10) + (b : ℚ) * (1 / 4) + (c : ℚ) * (1 / 5))| ≤
      138 / 9007199254740992 := by
    have he2 : ((a : ℚ) * (3 / 10) + (b : ℚ) * (1 / 4)) + (c : ℚ) * (1 / 5) =
        (a : ℚ) * (3 / 10) + (b : ℚ) * (1 / 4) + (c : ℚ) * (1 / 5) := by ring
    rw [← he2]
    linarith
  obtain ⟨hs3, hs3lo, hs3hi⟩ :=
    jsAdd_err S2 P4
      ((a : ℚ) * (3 / 10) + (b : ℚ) * (1 / 4) + (c : ℚ) * (1 / 5))
      ((d : ℚ) * (3 / 20)) _ _ hs2' hp4 (by linarith) (by linarith)
  set S3 := jsAdd S2 P4 with hS3def
  have hs3' : |S3 - ((a : ℚ) * (3 / 10) + (b : ℚ) * (1 / 4) + (c : ℚ) * (1 / 5) +
      (d : ℚ) * (3 / 20))| ≤ 204 / 9007199254740992 := by
    have he3 : ((a : ℚ) * (3 / 10) + (b : ℚ) * (1 / 4) + (c : ℚ) * (1 / 5)) +
        (d : ℚ) * (3 / 20) =
        (a : ℚ) * (3 / 10) + (b : ℚ) * (1 / 4) + (c : ℚ) * (1 / 5) +
        (d : ℚ) * (3 / 20) := by ring
    rw [← he3]
    linarith
  obtain ⟨hs4, hs4lo, hs4hi⟩ :=
    jsAdd_err S3 P5
      ((a : ℚ) * (3 / 10) + (b : ℚ) * (1 / 4) + (c : ℚ) * (1 / 5) +
        (d : ℚ) * (3 / 20))
      ((e : ℚ) * (1 / 10)) _ _ hs3' hp5 (by linarith) (by linarith)
  set S4 := jsAdd S3 P5 with hS4def
  set S : ℚ := (a : ℚ) * (3 / 10) + (b : ℚ) * (1 / 4) + (c : ℚ) * (1 / 5) +
      (d : ℚ) * (3 / 20) + (e : ℚ) * (1 / 10) with hSdef
  have hs4' : |S4 - S| ≤ 270 / 9007199254740992 := by
    have he4 : ((a : ℚ) * (3 / 10) + (b : ℚ) * (1 / 4) + (c : ℚ) * (1 / 5) +
        (d : ℚ) * (3 / 20)) + (e : ℚ) * (1 / 10) = S := by rw [hSdef]
    rw [← he4]
    linarith
  have hs4abs := abs_le.mp hs4'
  have hSlo : (1 : ℚ) ≤ S := by rw [hSdef]; linarith
  have hShi : S ≤ 5 := by rw [hSdef]; linarith
  have hS10 := jsMul_ten_err S4 S (270 / 9007199254740992) hs4'
    (by linarith) (by linarith)
  have hS10abs := abs_le.mp hS10
  have hWS : 10 * S = ((6 * a + 5 * b + 4 * c + 3 * d + 2 * e : ℤ) : ℚ) / 2 := by
    rw [hSdef]
    push_cast
    ring
  have hfloor1 : ((jsRound (jsMul S4 10) : ℤ) : ℚ) ≤ jsMul S4 10 + 1 / 2 := by
    unfold jsRound
    exact Int.floor_le _
  have hfloor2 : jsMul S4 10 + 1 / 2 < ((jsRound (jsMul S4 10) : ℤ) : ℚ) + 1 := by
    unfold jsRound
    exact Int.lt_floor_add_one _
  have hup : ((2 * jsRound (jsMul S4 10) : ℤ) : ℚ) <
      ((6 * a + 5 * b + 4 * c + 3 * d + 2 * e + 2 : ℤ) : ℚ) := by
    push_cast
    push_cast at hWS
    linarith
  have hdown : ((6 * a + 5 * b + 4 * c + 3 * d + 2 * e - 2 : ℤ) : ℚ) <
      ((2 * jsRound (jsMul S4 10) : ℤ) : ℚ) := by
    push_cast
    push_cast at hWS
    linarith
  have hup' : 2 * jsRound (jsMul S4 10) < 6 * a + 5 * b + 4 * c + 3 * d + 2 * e + 2 := by
    exact_mod_cast hup
  have hdown' : 6 * a + 5 * b + 4 * c + 3 * d + 2 * e - 2 < 2 * jsRound (jsMul S4 10) := by
    exact_mod_cast hdown
  exact intFinish a b c d e _ ha1 ha5 hb1 hb5 hc1 hc5 hd1 hd5 he1 he5 hdown' hup'

unseal Rat.mul Rat.inv Rat.add Rat.sub in
theorem flTenth_bounds :
    ∀ k ∈ List.range 41, 1 ≤ fl (((k : ℚ) + 10) / 10) ∧ fl (((k : ℚ) + 10) / 10) ≤ 5 := by
  decide

theorem fl_tenth_of_bounds (n : ℤ) (h1 : 10 ≤ n) (h2 : n ≤ 50) :
    1 ≤ fl ((n : ℚ) / 10) ∧ fl ((n : ℚ) / 10) ≤ 5 := by
  have hmem : (n - 10).toNat ∈ List.range 41 := List.mem_range.mpr (by omega)
  have hres := flTenth_bounds _ hmem
  have hz : (((n - 10).toNat : ℤ)) = n - 10 := Int.toNat_of_nonneg (by omega)
  have hcast : (((n - 10).toNat : ℚ)) = (n : ℚ) - 10 := by exact_mod_cast hz
  have harg : (((n - 10).toNat : ℚ) + 10) / 10 = (n : ℚ) / 10 := by rw [hcast]; ring
  rw [harg] at hres
  exact hres

theorem overall_close_tenths (a b c d e : ℤ)
    (ha1 : 1 ≤ a) (ha5 : a ≤ 5) (hb1 : 1 ≤ b) (hb5 : b ≤ 5)
    (hc1 : 1 ≤ c) (hc5 : c ≤ 5) (hd1 : 1 ≤ d) (hd5 : d ≤ 5)
    (he1 : 1 ≤ e) (he5 : e ≤ 5) :
    |((jsOverallInt a b c d e : ℚ)) / 10 -
      ((a : ℚ) * 0.30 + (b : ℚ) * 0.25 + (c : ℚ) * 0.20 +
        (d : ℚ) * 0.15 + (e : ℚ) * 0.10)| ≤ 1 / 20 := by
  obtain ⟨hlo, hhi, -, -⟩ :=
    jsOverallInt_close a b c d e ha1 ha5 hb1 hb5 hc1 hc5 hd1 hd5 he1 he5
  have hS : ((a : ℚ) * 0.30 + (b : ℚ) * 0.25 + (c : ℚ) * 0.20 +
      (d : ℚ) * 0.15 + (e : ℚ) * 0.10) =
      ((6 * a + 5 * b + 4 * c + 3 * d + 2 * e : ℤ) : ℚ) / 20 := by
    push_cast
    norm_num
    ring
  have hQlo : ((6 * a + 5 * b + 4 * c + 3 * d + 2 * e - 1 : ℤ) : ℚ) ≤
      ((2 * jsOverallInt a b c d e : ℤ) : ℚ) := by exact_mod_cast hlo
  have hQhi : ((2 * jsOverallInt a b c d e : ℤ) : ℚ) ≤
      ((6 * a + 5 * b + 4 * c + 3 * d + 2 * e + 1 : ℤ) : ℚ) := by exact_mod_cast hhi
  push_cast at hQlo hQhi
  rw [hS, abs_le]
  push_cast
  constructor <;> linarith

/-- **C5 (amended).** For every project text and every RAG
technical-requirements list, the project result's `overallScore` is the
binary64 (IEEE-754 double) evaluation, operation by operation, of
`Math.round(weightedSum * 10) / 10` applied to the double-arithmetic
weighted sum of the five per-criterion scores with weights correctness
0.30, code quality 0.25, resilience 0.20, documentation 0.15, creativity
0.10: it equals the double nearest `n / 10` for an integer `n` with
`n / 10` within `1/20` of the exact weighted average (at exact half-way
points the accumulated floating-point error can make the code round down
where exact arithmetic would round up), and each per-criterion score lies
between 1 and 5. -/
theorem evaluateProject_float_rounded (t : Str) (techReqs : List Str) :
    (evaluateProject t techReqs).overallScore =
      jsOverallScore (evaluateProject t techReqs).correctness
        (evaluateProject t techReqs).code_quality
        (evaluateProject t techReqs).resilience
        (evaluateProject t techReqs).documentation
        (evaluateProject t techReqs).creativity ∧
    (∃ n : ℤ, (evaluateProject t techReqs).overallScore = fl ((n : ℚ) / 10) ∧
      |(n : ℚ) / 10 -
        (((evaluateProject t techReqs).correctness : ℚ) * 0.30 +
          ((evaluateProject t techReqs).code_quality : ℚ) * 0.25 +
          ((evaluateProject t techReqs).resilience : ℚ) * 0.20 +
          ((evaluateProject t techReqs).documentation : ℚ) * 0.15 +
          ((evaluateProject t techReqs).creativity : ℚ) * 0.10)| ≤ 1 / 20) ∧
    (1 ≤ (evaluateProject t techReqs).correctness ∧
      (evaluateProject t techReqs).correctness ≤ 5) ∧
    (1 ≤ (evaluateProject t techReqs).code_quality ∧
      (evaluateProject t techReqs).code_quality ≤ 5) ∧
    (1 ≤ (evaluateProject t techReqs).resilience ∧
      (evaluateProject t techReqs).resilience ≤ 5) ∧
    (1 ≤ (evaluateProject t techReqs).documentation ∧
      (evaluateProject t techReqs).documentation ≤ 5) ∧
    (1 ≤ (evaluateProject t techReqs).creativity ∧
      (evaluateProject t techReqs).creativity ≤ 5) := by
  unfold evaluateProject
  dsimp only
  obtain ⟨h1, h2⟩ := scoreCorrectnessWithRAG_bounds t techReqs
  obtain ⟨h3, h4⟩ := scoreCodeQuality_bounds t
  obtain ⟨h5, h6⟩ := scoreResilienceWithRAG_bounds t techReqs
  obtain ⟨h7, h8⟩ := scoreDocumentation_bounds t
  obtain ⟨h9, h10⟩ := scoreCreativity_bounds t
  exact ⟨rfl,
    ⟨jsOverallInt (scoreCorrectnessWithRAG t techReqs) (scoreCodeQuality t)
        (scoreResilienceWithRAG t techReqs) (scoreDocumentation t)
        (scoreCreativity t), rfl,
      overall_close_tenths _ _ _ _ _ h1 h2 h3 h4 h5 h6 h7 h8 h9 h10⟩,
    ⟨h1, h2⟩, ⟨h3, h4⟩, ⟨h5, h6⟩, ⟨h7, h8⟩, ⟨h9, h10⟩⟩

unseal Rat.mul Rat.inv Rat.add Rat.sub Rat.ofScientific in
/-- **C5 (counterexample).** On the 250-character project text built from
`"retry error handling resilience setup "` and the pipeline's own
technical-requirements context, the criterion scores are 1, 2, 4, 3, 3;
the double-arithmetic weighted sum evaluates to 2.3499999999999996 (just
below the exact value 2.35), so the code stores
`Math.round(23.499999999999996) / 10 = 2.3`, whereas rounding the exact
weighted average to one decimal — the original claim — gives 2.4. -/
theorem evaluateProject_rounding_cex :
    (evaluateProject cexProjectText cexTechReqs).overallScore ≠
      roundTo1 (((evaluateProject cexProjectText cexTechReqs).correctness : ℚ) * 0.30 +
        ((evaluateProject cexProjectText cexTechReqs).code_quality : ℚ) * 0.25 +
        ((evaluateProject cexProjectText cexTechReqs).resilience : ℚ) * 0.20 +
        ((evaluateProject cexProjectText cexTechReqs).documentation : ℚ) * 0.15 +
        ((evaluateProject cexProjectText cexTechReqs).creativity : ℚ) * 0.10) := by
  decide

theorem evaluateCVMatch_score_bounds (cv : CVStructured)
    (jobSkills expReqs : List Str) :
    0 ≤ (evaluateCVMatch cv jobSkills expReqs).score ∧
      (evaluateCVMatch cv jobSkills expReqs).score ≤ 100 := by
  unfold evaluateCVMatch
  dsimp only
  obtain ⟨h1, h2⟩ := scoreTechnicalSkillsWithRAG_bounds cv.skills jobSkills
  obtain ⟨h3, h4⟩ := scoreExperienceWithRAG_bounds cv.experience_years expReqs
  obtain ⟨h5, h6⟩ := scoreAchievements_bounds cv.achievements
  obtain ⟨h7, h8⟩ := scoreCulturalFit_bounds cv.communication_indicators
  have c1 : ((scoreTechnicalSkillsWithRAG cv.skills jobSkills : ℚ)) ≤ 5 := by
    exact_mod_cast h2
  have c1' : (1 : ℚ) ≤ (scoreTechnicalSkillsWithRAG cv.skills jobSkills : ℚ) := by
    exact_mod_cast h1
  have c2 : ((scoreExperienceWithRAG cv.experience_years expReqs : ℚ)) ≤ 5 := by
    exact_mod_cast h4
  have c2' : (1 : ℚ) ≤ (scoreExperienceWithRAG cv.experience_years expReqs : ℚ) := by
    exact_mod_cast h3
  have c3 : ((scoreAchievements cv.achievements : ℚ)) ≤ 5 := by exact_mod_cast h6
  have c3' : (1 : ℚ) ≤ (scoreAchievements cv.achievements : ℚ) := by exact_mod_cast h5
  have c4 : ((scoreCulturalFit cv.communication_indicators : ℚ)) ≤ 5 := by
    exact_mod_cast h8
  have c4' : (1 : ℚ) ≤ (scoreCulturalFit cv.communication_indicators : ℚ) := by
    exact_mod_cast h7
  constructor
  · exact le_jsRound (by push_cast; linarith)
  · exact jsRound_le (by push_cast; linarith)

theorem evaluateProject_overall_bounds (t : Str) (techReqs : List Str) :
    1 ≤ (evaluateProject t techReqs).overallScore ∧
      (evaluateProject t techReqs).overallScore ≤ 5 := by
  unfold evaluateProject
  dsimp only
  obtain ⟨h1, h2⟩ := scoreCorrectnessWithRAG_bounds t techReqs
  obtain ⟨h3, h4⟩ := scoreCodeQuality_bounds t
  obtain ⟨h5, h6⟩ := scoreResilienceWithRAG_bounds t techReqs
  obtain ⟨h7, h8⟩ := scoreDocumentation_bounds t
  obtain ⟨h9, h10⟩ := scoreCreativity_bounds t
  obtain ⟨-, -, hn1, hn2⟩ :=
    jsOverallInt_close _ _ _ _ _ h1 h2 h3 h4 h5 h6 h7 h8 h9 h10
  unfold jsOverallScore
  exact fl_tenth_of_bounds _ hn1 hn2

/-- **C8.** For every completed evaluation — the numeric inputs ranging over
all structured CV data and RAG context lists, which subsumes every possible
CV and project input text — the compiled `cv_match_rate` (the CV match score
divided by 100) lies in `[0, 1]` and the compiled `project_score` (the
project `overallScore`) lies in `[1, 5]`. -/
theorem compileResult_ranges (cv : CVStructured) (jobSkills expReqs : List Str)
    (projectText : Str) (techReqs : List Str) :
    0 ≤ (compileResult (evaluateCVMatch cv jobSkills expReqs)
        (evaluateProject projectText techReqs)).cv_match_rate ∧
    (compileResult (evaluateCVMatch cv jobSkills expReqs)
        (evaluateProject projectText techReqs)).cv_match_rate ≤ 1 ∧
    1 ≤ (compileResult (evaluateCVMatch cv jobSkills expReqs)
        (evaluateProject projectText techReqs)).project_score ∧
    (compileResult (evaluateCVMatch cv jobSkills expReqs)
        (evaluateProject projectText techReqs)).project_score ≤ 5 := by
  obtain ⟨h1, h2⟩ := evaluateCVMatch_score_bounds cv jobSkills expReqs
  obtain ⟨h3, h4⟩ := evaluateProject_overall_bounds projectText techReqs
  have c1 : (0 : ℚ) ≤ ((evaluateCVMatch cv jobSkills expReqs).score : ℚ) := by
    exact_mod_cast h1
  have c2 : ((evaluateCVMatch cv jobSkills expReqs).score : ℚ) ≤ 100 := by
    exact_mod_cast h2
  unfold compileResult
  refine ⟨by linarith, by linarith, h3, h4⟩

/-- **C6.** For every CV score and project score, the hiring recommendation
is chosen by the fixed thresholds tested in order: `cv ≥ 80 ∧ proj ≥ 4.0`
gives the "highly recommended" outcome; otherwise `cv ≥ 70 ∧ proj ≥ 3.5`
gives the "recommended" outcome; otherwise `cv ≥ 60 ∧ proj ≥ 3.0` gives the
"needs discussion" outcome; otherwise the "needs further development"
outcome. -/
theorem recommendation_thresholds (cv proj : ℚ) :
    (80 ≤ cv ∧ 4 ≤ proj →
      recommendation cv proj = "Strong candidate - highly recommended for hire") ∧
    (¬(80 ≤ cv ∧ 4 ≤ proj) → 70 ≤ cv ∧ 7 / 2 ≤ proj →
      recommendation cv proj = "Good candidate fit - recommended for final interview") ∧
    (¬(80 ≤ cv ∧ 4 ≤ proj) → ¬(70 ≤ cv ∧ 7 / 2 ≤ proj) → 60 ≤ cv ∧ 3 ≤ proj →
      recommendation cv proj = "Potential candidate - needs technical discussion") ∧
    (¬(80 ≤ cv ∧ 4 ≤ proj) → ¬(70 ≤ cv ∧ 7 / 2 ≤ proj) → ¬(60 ≤ cv ∧ 3 ≤ proj) →
      recommendation cv proj = "Requires further development before consideration") := by
  unfold recommendation
  split_ifs with h1 h2 h3 <;>
    refine ⟨?_, ?_, ?_, ?_⟩ <;>
      intros <;>
      first
        | rfl
        | tauto

/-- Witness for `recommendation_thresholds` at `cv = 85`, `proj = 4.2`. -/
theorem recommendation_thresholds_witness :
    recommendation 85 (21 / 5) = "Strong candidate - highly recommended for hire" :=
  (recommendation_thresholds 85 (21 / 5)).1 (by norm_num)

theorem callLoop_allFail (cfg : RetryConfig) (ok : ℕ → Bool)
    (h : ∀ a, ok a = false) :
    ∀ (rem att : ℕ), callLoop cfg ok att rem =
      (false, (List.range rem).map (fun i => backoffDelay cfg (att + i))) := by
  intro rem
  induction rem with
  | zero =>
    intro att
    simp [callLoop, h]
  | succ n ih =>
    intro att
    have hshift : (fun i => backoffDelay cfg (att + 1 + i)) =
        (fun i => backoffDelay cfg (att + (i + 1))) := by
      funext i
      congr 1
      omega
    simp [callLoop, h att, ih (att + 1), List.range_succ_eq_map, hshift,
      List.map_map, Function.comp_def]

/-- **C7 (amended).** The external-call wrapper computes the backoff delay
`min(baseDelay * 2^(attempt-1), maxDelay)` — at the defaults the formula
yields 1000, 2000, 4000 for attempts 1, 2, 3 — but it sleeps only when
`attempt < maxRetries`, so when every attempt fails the delays actually
waited with the defaults are `[1000, 2000]` (the 4000ms value would precede
a fourth attempt that is never made); after the last failed attempt
`callOpenAI` throws, the calling stage's `catch` substitutes the
deterministic fallback, and the stage returns a value (never an error) for
every pattern of attempt failures. -/
theorem stageInvoke_spec {α : Type} (ok : ℕ → Bool) (v fb : α) :
    backoffDelay defaultRetryConfig 1 = 1000 ∧
    backoffDelay defaultRetryConfig 2 = 2000 ∧
    backoffDelay defaultRetryConfig 3 = 4000 ∧
    ((∀ a, ok a = false) →
      stageInvoke defaultRetryConfig ok v fb = (fb, [1000, 2000])) ∧
    (∀ cfg : RetryConfig, (∀ a, ok a = false) →
      stageInvoke cfg ok v fb =
        (fb, (List.range (cfg.maxRetries - 1)).map
          (fun i => backoffDelay cfg (1 + i)))) := by
  have hgen : ∀ cfg : RetryConfig, (∀ a, ok a = false) →
      stageInvoke cfg ok v fb =
        (fb, (List.range (cfg.maxRetries - 1)).map
          (fun i => backoffDelay cfg (1 + i))) := by
    intro cfg h
    unfold stageInvoke
    rw [callLoop_allFail cfg ok h (cfg.maxRetries - 1) 1]
    simp
  refine ⟨by decide, by decide, by decide, ?_, hgen⟩
  intro h
  rw [hgen defaultRetryConfig h]
  have hmap : (List.range (defaultRetryConfig.maxRetries - 1)).map
      (fun i => backoffDelay defaultRetryConfig (1 + i)) = [1000, 2000] := by
    decide
  rw [hmap]

/-- Witness for `stageInvoke_spec`: all three attempts fail, the fallback
value 7 is returned and the waits are 1000ms then 2000ms. -/
theorem stageInvoke_spec_witness :
    stageInvoke defaultRetryConfig (fun _ => false) (0 : ℕ) 7 = (7, [1000, 2000]) :=
  (stageInvoke_spec (fun _ => false) 0 7).2.2.2.1 (fun _ => rfl)

/-- **C7 (counterexample).** With the default configuration and every
attempt failing, the wrapper waits `[1000, 2000]` — not the claimed
delay sequence `[1000, 2000, 4000]`. -/
theorem stageInvoke_delays_cex :
    (stageInvoke defaultRetryConfig (fun _ => false) (0 : ℕ) 7).2 = [1000, 2000] ∧
    (stageInvoke defaultRetryConfig (fun _ => false) (0 : ℕ) 7).2 ≠
      [1000, 2000, 4000] := by
  decide

/-- **C10.** `extractFileContent` is total — it returns a string for every
file record and every outcome of the file read, so the text-extraction step
never throws and by itself never moves a job to `failed`: `text/plain` files
yield the file contents, any other mimetype yields the fixed mock content,
and a read error on a `text/plain` file yields the
`Unable to extract content from <name>: <message>` string. -/
theorem extractFileContent_total (f : FileInfo) (readResult : Except Str Str) :
    (f.mimetype = ofStr "text/plain" → ∀ c, readResult = .ok c →
      extractFileContent f readResult = c) ∧
    (f.mimetype ≠ ofStr "text/plain" →
      extractFileContent f readResult = mockContent f) ∧
    (f.mimetype = ofStr "text/plain" → ∀ m, readResult = .error m →
      extractFileContent f readResult =
        ofStr "Unable to extract content from " ++ f.originalName ++
          ofStr ": " ++ m) := by
  refine ⟨?_, ?_, ?_⟩
  · intro hm c hr
    simp [extractFileContent, hm, hr]
  · intro hm
    simp [extractFileContent, hm]
  · intro hm m hr
    simp [extractFileContent, hm, hr]

/-- Witness for `extractFileContent_total`: a PDF upload gets the mock
content, and a failing read of a text file gets the error-message string. -/
theorem extractFileContent_total_witness :
    extractFileContent ⟨ofStr "cv.pdf", ofStr "application/pdf", 100⟩ (.ok []) =
      mockContent ⟨ofStr "cv.pdf", ofStr "application/pdf", 100⟩ ∧
    extractFileContent ⟨ofStr "cv.txt", ofStr "text/plain", 10⟩
        (.error (ofStr "ENOENT")) =
      ofStr "Unable to extract content from " ++ ofStr "cv.txt" ++
        ofStr ": " ++ ofStr "ENOENT" :=
  ⟨(extractFileContent_total ⟨ofStr "cv.pdf", ofStr "application/pdf", 100⟩
      (.ok [])).2.1 (by decide),
   (extractFileContent_total ⟨ofStr "cv.txt", ofStr "text/plain", 10⟩
      (.error (ofStr "ENOENT"))).2.2 (by decide) (ofStr "ENOENT") rfl⟩

theorem foldl_add_count (p : Str → Bool) (pts : ℕ) :
    ∀ (l : List Str) (s : ℕ),
      l.foldl (fun s2 cw => if p cw then s2 + pts else s2) s =
        s + l.countP p * pts := by
  intro l
  induction l with
  | nil => intro s; simp
  | cons x xs ih =>
    intro s
    by_cases h : p x <;>
      simp [List.foldl_cons, h, ih, List.countP_cons] <;>
      ring

theorem calculateRelevanceScore_eq (chunk : Str) (queryWords : List Str) :
    calculateRelevanceScore chunk queryWords =
      ((queryWords.map (fun qw =>
        ((splitWs (lower chunk)).countP
          (fun cw => substrMatch qw cw || substrMatch cw qw)) *
        (if 3 < qw.length then 2 else 1))).sum) +
      (if queryWords.any (fun w => substrMatch w (lower chunk)) then 3 else 0) := by
  unfold calculateRelevanceScore
  dsimp only
  have main : ∀ (qs : List Str) (s : ℕ),
      qs.foldl (fun s qw => (splitWs (lower chunk)).foldl
        (fun s2 cw => if substrMatch qw cw || substrMatch cw qw then
          s2 + (if 3 < qw.length then 2 else 1) else s2) s) s =
        s + (qs.map (fun qw =>
          ((splitWs (lower chunk)).countP
            (fun cw => substrMatch qw cw || substrMatch cw qw)) *
          (if 3 < qw.length then 2 else 1))).sum := by
    intro qs
    induction qs with
    | nil => intro s; simp
    | cons q qs ih =>
      intro s
      rw [List.foldl_cons, foldl_add_count, ih]
      simp [List.map_cons]
      ring
  rw [main queryWords 0]
  split <;> omega

/-- **C2 (amended).** For every chunk and query, the retrieval relevance
score equals the sum, over every (queryToken, chunkToken) pair of
whitespace-split case-folded tokens where one contains the other, of 2
points when the query token's length exceeds 3 and 1 point otherwise, plus
a flat +3 bonus exactly when at least one case-folded query token — not
necessarily the whole raw query string — appears as a substring of the
case-folded chunk. -/
theorem relevance_score_amended (chunk query : Str) :
    chunkKey query chunk =
      tokenPairPoints chunk query +
      (if (splitWs (lower query)).any
        (fun w => substrMatch w (lower chunk)) then 3 else 0) := by
  unfold chunkKey tokenPairPoints
  exact calculateRelevanceScore_eq chunk (splitWs (lower query))

/-- **C2 (counterexample).** On the chunk `"hello there"` and the query
`"hello world"` the source assigns score 5 (token points 2 for the
hello/hello pair, plus the +3 bonus because the token `"hello"` occurs in
the chunk), whereas the claimed formula assigns 2 (no bonus: the raw query
string `"hello world"` does not occur in the chunk). -/
theorem relevance_bonus_cex :
    chunkKey (ofStr "hello world") (ofStr "hello there") = 5 ∧
    claimedRelevanceScore (ofStr "hello there") (ofStr "hello world") = 2 ∧
    chunkKey (ofStr "hello world") (ofStr "hello there") ≠
      claimedRelevanceScore (ofStr "hello there") (ofStr "hello world") := by
  decide

theorem insertDesc_perm {α : Type} (key : α → ℕ) (x : α) (l : List α) :
    insertDesc key x l ~ x :: l := by
  induction l with
  | nil => simp [insertDesc]
  | cons y ys ih =>
    unfold insertDesc
    split
    · exact (ih.cons y).trans (List.Perm.swap x y ys)
    · exact List.Perm.refl _

theorem sortDesc_perm {α : Type} (key : α → ℕ) (l : List α) :
    sortDesc key l ~ l := by
  induction l with
  | nil => simp [sortDesc]
  | cons x xs ih =>
    exact (insertDesc_perm key x _).trans (ih.cons x)

theorem insertDesc_pairwise {α : Type} (key : α → ℕ) (x : α) {l : List α}
    (h : l.Pairwise (fun a b => key b ≤ key a)) :
    (insertDesc key x l).Pairwise (fun a b => key b ≤ key a) := by
  induction l with
  | nil => simp [insertDesc]
  | cons y ys ih =>
    obtain ⟨h1, h2⟩ := List.pairwise_cons.mp h
    unfold insertDesc
    by_cases hxy : key x < key y
    · rw [if_pos hxy]
      rw [List.pairwise_cons]
      refine ⟨?_, ih h2⟩
      intro b hb
      rcases List.mem_cons.mp ((insertDesc_perm key x ys).subset hb) with rfl | hbys
      · omega
      · exact h1 b hbys
    · rw [if_neg hxy]
      rw [List.pairwise_cons]
      refine ⟨?_, h⟩
      intro b hb
      rcases List.mem_cons.mp hb with rfl | hbys
      · omega
      · have := h1 b hbys
        omega

theorem sortDesc_pairwise {α : Type} (key : α → ℕ) (l : List α) :
    (sortDesc key l).Pairwise (fun a b => key b ≤ key a) := by
  induction l with
  | nil => simp [sortDesc]
  | cons x xs ih => exact insertDesc_pairwise key x ih

theorem insertDesc_filter_eq {α : Type} (key : α → ℕ) (s : ℕ) (x : α)
    (l : List α) :
    (insertDesc key x l).filter (fun y => key y == s) =
      if key x = s then x :: l.filter (fun y => key y == s)
      else l.filter (fun y => key y == s) := by
  induction l with
  | nil =>
    simp only [insertDesc, List.filter_cons, List.filter_nil]
    split_ifs <;> simp_all
  | cons y ys ih =>
    simp only [insertDesc]
    by_cases hxy : key x < key y
    · rw [if_pos hxy, List.filter_cons, ih, List.filter_cons]
      split_ifs <;> simp_all <;> omega
    · rw [if_neg hxy, List.filter_cons, List.filter_cons]
      split_ifs <;> simp_all

theorem sortDesc_filter_eq {α : Type} (key : α → ℕ) (s : ℕ) (l : List α) :
    (sortDesc key l).filter (fun y => key y == s) =
      l.filter (fun y => key y == s) := by
  induction l with
  | nil => simp [sortDesc]
  | cons x xs ih =>
    simp only [sortDesc]
    rw [insertDesc_filter_eq, ih, List.filter_cons]
    split_ifs <;> simp_all

theorem take_front {α : Type} (n : ℕ) (l : List α) : l.take n <+: l :=
  ⟨l.drop n, List.take_append_drop n l⟩

theorem front_filter {α : Type} (p : α → Bool) {l₁ l₂ : List α}
    (h : l₁ <+: l₂) : l₁.filter p <+: l₂.filter p := by
  obtain ⟨t, rfl⟩ := h
  exact ⟨t.filter p, (List.filter_append _ _).symm⟩

theorem front_map {α β : Type} (f : α → β) {l₁ l₂ : List α}
    (h : l₁ <+: l₂) : l₁.map f <+: l₂.map f := by
  obtain ⟨t, rfl⟩ := h
  exact ⟨t.map f, (List.map_append _ _ _).symm⟩

/-- **C3.** For every chunk list and query, `findRelevantChunks` returns the
`k = 3` highest-scoring chunks in descending score order: the output length
is `min(#positives, 3)`; every returned chunk scores positively (chunks with
score 0 are excluded before ranking); the scores descend along the output;
for every positive score value the returned chunks with that score are an
initial segment, in order, of the input chunks with that score (stable
tie-breaking by original position); and every positively-scoring input chunk
left out scores no more than every returned chunk. -/
theorem findRelevantChunks_spec (chunks : List Str) (query : Str) :
    (findRelevantChunks chunks query).length =
      min (chunks.countP (fun c => 0 < chunkKey query c)) 3 ∧
    (∀ c ∈ findRelevantChunks chunks query, 0 < chunkKey query c) ∧
    (findRelevantChunks chunks query).Pairwise
      (fun a b => chunkKey query b ≤ chunkKey query a) ∧
    (∀ s : ℕ, 0 < s →
      (findRelevantChunks chunks query).filter
          (fun c => chunkKey query c == s) <+:
        chunks.filter (fun c => chunkKey query c == s)) ∧
    (∀ x ∈ chunks, 0 < chunkKey query x →
      x ∉ findRelevantChunks chunks query →
      ∀ y ∈ findRelevantChunks chunks query,
        chunkKey query x ≤ chunkKey query y) := by
  have hfr : findRelevantChunks chunks query =
      ((sortDesc ScoredChunk.score
        ((chunks.map (fun c => ScoredChunk.mk c (chunkKey query c))).filter
          (fun it => 0 < it.score))).take 3).map ScoredChunk.chunk := rfl
  set f : Str → ScoredChunk := fun c => ScoredChunk.mk c (chunkKey query c)
    with hf
  set scored := (chunks.map f).filter (fun it => 0 < it.score) with hscored
  set L := sortDesc ScoredChunk.score scored with hL
  have hmem : ∀ sc ∈ L, sc.score = chunkKey query sc.chunk ∧ 0 < sc.score := by
    intro sc hsc
    have h2 : sc ∈ scored :=
      (sortDesc_perm ScoredChunk.score scored).subset hsc
    rw [hscored] at h2
    have h3 := List.mem_filter.mp h2
    obtain ⟨c, hc, rfl⟩ := List.mem_map.mp h3.1
    exact ⟨rfl, by simpa using h3.2⟩
  refine ⟨?_, ?_, ?_, ?_, ?_⟩
  · rw [hfr, List.length_map, List.length_take]
    have hlen : L.length = scored.length := (sortDesc_perm _ _).length_eq
    rw [hlen, hscored]
    rw [← List.countP_eq_length_filter, List.countP_map]
    have hpf : ((fun it => decide (0 < it.score)) ∘ f) =
        (fun c => decide (0 < chunkKey query c)) := rfl
    rw [hpf, Nat.min_comm]
  · intro c hc
    rw [hfr] at hc
    obtain ⟨sc, hsc, rfl⟩ := List.mem_map.mp hc
    have h := hmem sc (List.mem_of_mem_take hsc)
    exact h.1 ▸ h.2
  · rw [hfr, List.pairwise_map]
    have hpw : L.Pairwise (fun a b => ScoredChunk.score b ≤ ScoredChunk.score a) :=
      sortDesc_pairwise _ _
    have htake : (L.take 3).Pairwise
        (fun a b => ScoredChunk.score b ≤ ScoredChunk.score a) :=
      hpw.sublist (List.take_sublist 3 L)
    refine htake.imp_of_mem ?_
    intro a b ha hb hab
    have h1 := (hmem a (List.mem_of_mem_take ha)).1
    have h2 := (hmem b (List.mem_of_mem_take hb)).1
    rw [← h1, ← h2]
    exact hab
  · intro s hs
    rw [hfr]
    rw [List.filter_map]
    have hcong : ∀ sc ∈ L.take 3,
        ((fun c => chunkKey query c == s) ∘ ScoredChunk.chunk) sc =
          (fun y => ScoredChunk.score y == s) sc := by
      intro sc hsc
      have h := (hmem sc (List.mem_of_mem_take hsc)).1
      simp [Function.comp, h]
    rw [List.filter_congr hcong]
    have h1 : (L.take 3).filter (fun y => ScoredChunk.score y == s) <+:
        L.filter (fun y => ScoredChunk.score y == s) :=
      front_filter _ (take_front 3 L)
    have h2 : L.filter (fun y => ScoredChunk.score y == s) =
        scored.filter (fun y => ScoredChunk.score y == s) :=
      sortDesc_filter_eq _ s scored
    have h3 : scored.filter (fun y => ScoredChunk.score y == s) =
        (chunks.map f).filter (fun y => ScoredChunk.score y == s) := by
      rw [hscored, List.filter_filter]
      refine List.filter_congr ?_
      intro y _
      by_cases h : y.score = s
      · simp [h]
        omega
      · simp [h]
    have h4 : (chunks.map f).filter (fun y => ScoredChunk.score y == s) =
        (chunks.filter (fun c => chunkKey query c == s)).map f := by
      rw [List.filter_map]
      rfl
    have h5 := front_map ScoredChunk.chunk h1
    rw [h2, h3, h4] at h5
    have h6 : ((chunks.filter (fun c => chunkKey query c == s)).map f).map
        ScoredChunk.chunk = chunks.filter (fun c => chunkKey query c == s) := by
      rw [List.map_map]
      exact List.map_id _
    rw [h6] at h5
    exact h5
  · intro x hx hpos hnot y hy
    have hfx : f x ∈ scored := by
      rw [hscored]
      refine List.mem_filter.mpr ⟨List.mem_map_of_mem f hx, by simpa using hpos⟩
    have hfx2 : f x ∈ L := ((sortDesc_perm _ _).mem_iff).mpr hfx
    rw [← List.take_append_drop 3 L] at hfx2
    rcases List.mem_append.mp hfx2 with h | h
    · exact absurd (by rw [hfr]; exact List.mem_map_of_mem ScoredChunk.chunk h)
        hnot
    · rw [hfr] at hy
      obtain ⟨sc, hsc, rfl⟩ := List.mem_map.mp hy
      have hpw : L.Pairwise (fun a b => ScoredChunk.score b ≤ ScoredChunk.score a) :=
        sortDesc_pairwise _ _
      rw [← List.take_append_drop 3 L] at hpw
      have hrel := (List.pairwise_append.mp hpw).2.2 sc hsc (f x) h
      have hsc' := (hmem sc (List.mem_of_mem_take hsc)).1
      rw [← hsc']
      exact hrel

/-- Witness for `findRelevantChunks_spec`: stable-tie prefix property at
score 5 on a small concrete store, and the top-k property applied to an
excluded chunk. -/
theorem findRelevantChunks_spec_witness :
    (findRelevantChunks [ofStr "xyz", ofStr "hello a", ofStr "say hello hello"]
        (ofStr "hello")).filter
      (fun c => chunkKey (ofStr "hello") c == 5) <+:
    ([ofStr "xyz", ofStr "hello a", ofStr "say hello hello"]).filter
      (fun c => chunkKey (ofStr "hello") c == 5) :=
  (findRelevantChunks_spec [ofStr "xyz", ofStr "hello a", ofStr "say hello hello"]
    (ofStr "hello")).2.2.2.1 5 (by norm_num)

/-- **C9.** `searchDocuments` via the `GET /vectordb/search` handler: an
empty query is rejected with the missing-query error; for every non-empty
query and limit `n` the handler returns the `searchDocuments` results, of
which there are at most `n`, each coming from a stored document with at
least one matching chunk (so its relevance `totalRelevance` is strictly
positive and equals the number of ranked chunks returned for it), and the
results are ordered by descending match count. -/
theorem searchHandler_spec (docs : List Document) (query : Str) (limit : ℕ) :
    (query = [] → searchHandler docs query limit =
      .error "Query parameter \"q\" is required") ∧
    (query ≠ [] → searchHandler docs query limit =
      .ok (searchDocuments docs query limit)) ∧
    (searchDocuments docs query limit).length ≤ limit ∧
    (∀ res ∈ searchDocuments docs query limit,
      0 < res.totalRelevance ∧
      res.totalRelevance = res.relevantChunks.length ∧
      res.relevantChunks ≠ [] ∧
      ∃ d ∈ docs, res = searchEntry query d) ∧
    (searchDocuments docs query limit).Pairwise
      (fun a b => b.totalRelevance ≤ a.totalRelevance) := by
  refine ⟨?_, ?_, ?_, ?_, ?_⟩
  · intro h
    simp [searchHandler, h]
  · intro h
    rw [searchHandler, if_neg]
    simp [List.isEmpty_iff, h]
  · rw [searchDocuments]
    exact List.length_take_le _ _
  · intro res hres
    rw [searchDocuments] at hres
    have h1 : res ∈ sortDesc SearchResult.totalRelevance
        ((docs.map (searchEntry query)).filter
          (fun r => 0 < r.totalRelevance)) := List.mem_of_mem_take hres
    have h2 := (sortDesc_perm _ _).subset h1
    have h3 := List.mem_filter.mp h2
    obtain ⟨d, hd, rfl⟩ := List.mem_map.mp h3.1
    have hpos : 0 < (searchEntry query d).totalRelevance := by simpa using h3.2
    refine ⟨hpos, rfl, ?_, d, hd, rfl⟩
    intro hnil
    rw [searchEntry] at hpos hnil
    dsimp only at hpos hnil
    rw [hnil] at hpos
    simp at hpos
  · rw [searchDocuments]
    exact (sortDesc_pairwise _ _).sublist (List.take_sublist _ _)

/-- Witness for `searchHandler_spec`: a two-document store queried with a
non-empty query returns the `searchDocuments` result through the handler. -/
theorem searchHandler_spec_witness :
    searchHandler
      [⟨ofStr "d1", ofStr "c1", [ofStr "backend skills here"]⟩,
       ⟨ofStr "d2", ofStr "c2", [ofStr "nothing relevant"]⟩]
      (ofStr "backend") 2 =
    .ok (searchDocuments
      [⟨ofStr "d1", ofStr "c1", [ofStr "backend skills here"]⟩,
       ⟨ofStr "d2", ofStr "c2", [ofStr "nothing relevant"]⟩]
      (ofStr "backend") 2) :=
  (searchHandler_spec _ (ofStr "backend") 2).2.1 (by decide)

/-- **C1.** Along every observable job trace — for any timestamps and any
pipeline outcome, including a failure thrown after any processing
checkpoint — the status only moves along `queued → processing →
{completed, failed}` (consecutive snapshots keep their status or take one of
the three allowed transitions, never regressing); the trace starts at
`queued`; in a terminal snapshot exactly one of `result` (when completed) or
`error` (when failed) is set; `completedAt`/`failedAt` are set exactly on
the snapshots whose status is the corresponding terminal status (hence
written once, on the terminal transition, and never before); and every
non-final snapshot is still `queued` or `processing` (so terminal fields are
never mutated afterwards).  The status field only ever holds the four
`JobStatus` values, which is forced by the embedding because the source
assigns only those four string literals. -/
theorem jobTrace_state_machine (t0 t1 t2 : ℕ) (o : PipelineOutcome) :
    List.Chain' statusStep (jobTrace t0 t1 t2 o) ∧
    ((jobTrace t0 t1 t2 o).head?.map Job.status = some .queued) ∧
    (∀ j ∈ jobTrace t0 t1 t2 o,
      (j.status = .completed → (∃ r, j.result = some r) ∧ j.error = none) ∧
      (j.status = .failed → (∃ e, j.error = some e) ∧ j.result = none) ∧
      (j.completedAt.isSome ↔ j.status = .completed) ∧
      (j.failedAt.isSome ↔ j.status = .failed)) ∧
    (∀ j ∈ (jobTrace t0 t1 t2 o).dropLast,
      j.status = .queued ∨ j.status = .processing) := by
  rcases o with r | ⟨k, msg⟩
  · simp [jobTrace, processingMessages, statusStep, List.chain'_cons]
  · fin_cases k <;>
      simp [jobTrace, processingMessages, statusStep, List.chain'_cons]

/-- Witness for `jobTrace_state_machine`: in the successful trace at
concrete instants, the terminal snapshot carries a result and no error. -/
theorem jobTrace_state_machine_witness :
    (∃ res, (Job.mk .completed "AI evaluation completed successfully"
        (some ⟨1 / 2, 3⟩) none 0 (some 1) (some 2) none).result = some res) ∧
    (Job.mk .completed "AI evaluation completed successfully"
        (some ⟨1 / 2, 3⟩) none 0 (some 1) (some 2) none).error = none :=
  ((jobTrace_state_machine 0 1 2 (.success ⟨1 / 2, 3⟩)).2.2.1
    (Job.mk .completed "AI evaluation completed successfully"
      (some ⟨1 / 2, 3⟩) none 0 (some 1) (some 2) none)
    (List.mem_cons_of_mem _
      (List.mem_append_right _ (List.mem_singleton_self _)))).1 rfl
